import Mathlib

/-!
Shallow embedding of the credential & token lifecycle subsystem of the
SaaS starter backend (`src/main.py`): password hashing (`hash_password`),
signup, login, forgot-password (`password_reset_request`) and
reset-password (`password_reset_confirm`), together with theorems settling
the specification claims about them.

Modelling conventions:
* The MongoDB store is a record of in-memory lists; `find_one` is
  `List.find?` (first match in insertion order) and `update_one` updates
  the first matching element.
* `datetime.utcnow()` is a `Nat` timestamp (seconds); each request takes a
  single `now` parameter standing for the (practically equal) `utcnow()`
  calls made during that request.  `timedelta(hours=1)` is `3600`.
* `uuid.uuid4().hex` is nondeterministic, so the generated token is an
  explicit oracle parameter of `password_reset_request`.
* `hashlib.sha256` is implemented in full (FIPS 180-4) over `Nat` with
  explicit `% 2 ^ 32`, and `.encode()` is UTF-8 encoding of the string.
-/

namespace SaaS

/-! ### SHA-256 (`hashlib.sha256(...).hexdigest()`), over `Nat` -/

/-- The 32-bit modulus. -/
def M32 : Nat := 2 ^ 32

/-- 32-bit modular addition. -/
def add32 (a b : Nat) : Nat := (a + b) % M32

/-- 32-bit right rotation by `n` of a word `x < 2 ^ 32`. -/
def rotr32 (n x : Nat) : Nat := (x / 2 ^ n + x % 2 ^ n * 2 ^ (32 - n)) % M32

/-- Logical right shift. -/
def shr (n x : Nat) : Nat := x / 2 ^ n

/-- 32-bit complement. -/
def not32 (x : Nat) : Nat := x ^^^ (M32 - 1)

/-- SHA-256 choice function. -/
def ch (e f g : Nat) : Nat := (e &&& f) ^^^ (not32 e &&& g)

/-- SHA-256 majority function. -/
def maj (a b c : Nat) : Nat := ((a &&& b) ^^^ (a &&& c)) ^^^ (b &&& c)

def bigSigma0 (x : Nat) : Nat := (rotr32 2 x ^^^ rotr32 13 x) ^^^ rotr32 22 x

def bigSigma1 (x : Nat) : Nat := (rotr32 6 x ^^^ rotr32 11 x) ^^^ rotr32 25 x

def smallSigma0 (x : Nat) : Nat := (rotr32 7 x ^^^ rotr32 18 x) ^^^ shr 3 x

def smallSigma1 (x : Nat) : Nat := (rotr32 17 x ^^^ rotr32 19 x) ^^^ shr 10 x

/-- The 64 SHA-256 round constants of FIPS 180-4 (fractional parts of the
cube roots of the first 64 primes), written in decimal. -/
def K : List Nat :=
  [1116352408, 1899447441, 3049323471, 3921009573, 961987163, 1508970993,
   2453635748, 2870763221, 3624381080, 310598401, 607225278, 1426881987,
   1925078388, 2162078206, 2614888103, 3248222580, 3835390401, 4022224774,
   264347078, 604807628, 770255983, 1249150122, 1555081692, 1996064986,
   2554220882, 2821834349, 2952996808, 3210313671, 3336571891, 3584528711,
   113926993, 338241895, 666307205, 773529912, 1294757372, 1396182291,
   1695183700, 1986661051, 2177026350, 2456956037, 2730485921, 2820302411,
   3259730800, 3345764771, 3516065817, 3600352804, 4094571909, 275423344,
   430227734, 506948616, 659060556, 883997877, 958139571, 1322822218,
   1537002063, 1747873779, 1955562222, 2024104815, 2227730452, 2361852424,
   2428436474, 2756734187, 3204031479, 3329325298]

/-- The SHA-256 initial hash state of FIPS 180-4 (fractional parts of the
square roots of the first 8 primes), written in decimal. -/
def H0 : List Nat :=
  [1779033703, 3144134277, 1013904242, 2773480762,
   1359893119, 2600822924, 528734635, 1541459225]

/-- UTF-8 encoding of one Unicode code point (Python `str.encode()`). -/
def utf8Bytes (n : Nat) : List Nat :=
  if n < 0x80 then [n]
  else if n < 0x800 then [0xc0 + n / 0x40, 0x80 + n % 0x40]
  else if n < 0x10000 then [0xe0 + n / 0x1000, 0x80 + n / 0x40 % 0x40, 0x80 + n % 0x40]
  else [0xf0 + n / 0x40000, 0x80 + n / 0x1000 % 0x40, 0x80 + n / 0x40 % 0x40, 0x80 + n % 0x40]

/-- UTF-8 bytes of a string. -/
def strBytes (s : String) : List Nat := (s.data.map (fun c => utf8Bytes c.toNat)).flatten

/-- SHA-256 padding: append `0x80`, zeros to 56 mod 64, then the 64-bit
big-endian bit length. -/
def padMessage (msg : List Nat) : List Nat :=
  msg ++ 0x80 :: List.replicate ((119 - msg.length % 64) % 64) 0 ++
    (List.range 8).map (fun i => 8 * msg.length / 2 ^ (8 * (7 - i)) % 256)

/-- Split a byte list into 64-byte blocks; `fuel` bounds the number of
blocks (structural recursion so that the kernel can evaluate it). -/
def chunks64Aux : Nat → List Nat → List (List Nat)
  | 0, _ => []
  | _, [] => []
  | fuel + 1, l => l.take 64 :: chunks64Aux fuel (l.drop 64)

/-- Split a byte list into 64-byte blocks (`l.length` steps of fuel always
suffice, since every step consumes at least one byte). -/
def chunks64 (l : List Nat) : List (List Nat) := chunks64Aux l.length l

/-- Big-endian 32-bit word from 4 bytes. -/
def bytesToWord (bs : List Nat) : Nat := bs.foldl (fun a b => a * 256 + b % 256) 0

/-- The sixteen 32-bit words of a 64-byte block. -/
def blockWords (block : List Nat) : List Nat :=
  (List.range 16).map (fun j => bytesToWord ((block.drop (4 * j)).take 4))

/-- One message-schedule extension step:
`W[t] = σ1 W[t-2] + W[t-7] + σ0 W[t-15] + W[t-16]  (mod 2^32)`. -/
def extendStep (w : List Nat) : List Nat :=
  w ++ [add32 (add32 (smallSigma1 (w.getD (w.length - 2) 0)) (w.getD (w.length - 7) 0))
        (add32 (smallSigma0 (w.getD (w.length - 15) 0)) (w.getD (w.length - 16) 0))]

/-- The 64-word message schedule of a block. -/
def messageSchedule (block : List Nat) : List Nat :=
  (List.range 48).foldl (fun w _ => extendStep w) (blockWords block)

/-- One SHA-256 compression round on the state `[a,b,c,d,e,f,g,h]`. -/
def roundStep : List Nat → Nat × Nat → List Nat
  | [a, b, c, d, e, f, g, h], (k, w) =>
    let t1 := add32 h (add32 (bigSigma1 e) (add32 (ch e f g) (add32 k w)))
    let t2 := add32 (bigSigma0 a) (maj a b c)
    [add32 t1 t2, a, b, c, add32 d t1, e, f, g]
  | st, _ => st

/-- Compress one block into the running state. -/
def compress (st : List Nat) (block : List Nat) : List Nat :=
  List.zipWith add32 st ((K.zip (messageSchedule block)).foldl roundStep st)

/-- The eight final hash words of a byte message. -/
def sha256Words (msg : List Nat) : List Nat :=
  (chunks64 (padMessage msg)).foldl compress H0

/-- The 256-bit digest as a single `Nat` (big-endian concatenation of the
eight 32-bit state words). -/
def wordsToNat : List Nat → Nat
  | [a, b, c, d, e, f, g, h] =>
    ((((((a % M32 * M32 + b % M32) * M32 + c % M32) * M32 + d % M32) * M32 + e % M32) * M32
      + f % M32) * M32 + g % M32) * M32 + h % M32
  | _ => 0

/-- SHA-256 digest of a byte message, as a `Nat < 2 ^ 256`. -/
def sha256Nat (msg : List Nat) : Nat := wordsToNat (sha256Words msg)

/-- Lowercase hex digit. -/
def hexDigitChar (d : Nat) : Char := Char.ofNat (if d < 10 then 48 + d else 87 + d)

/-- 64-digit lowercase hex rendering of a 256-bit number (`hexdigest()`). -/
def natToHex64 (n : Nat) : String :=
  String.mk ((List.range 64).map (fun i => hexDigitChar (n / 16 ^ (63 - i) % 16)))

/-- `hashlib.sha256(s.encode()).hexdigest()`. -/
def sha256hex (s : String) : String := natToHex64 (sha256Nat (strBytes s))

/-! ### Password hashing (`hash_password`, src/main.py lines 61-63) -/

/-- The process salt: `os.getenv("APP_SALT", "static_salt_change_me")`,
modelled as the hardcoded default used when the variable is unset. -/
def APP_SALT : String := "static_salt_change_me"

/-- `hash_password(pw) = sha256((salt + pw).encode()).hexdigest()`. -/
def hash_password (pw : String) : String := sha256hex (APP_SALT ++ pw)

/-! ### Data model (src/schemas.py and the collections of src/main.py)

Only the token collection's Mongo `_id` is modelled (as `id : Nat`,
assigned from a `next_id` counter on insert), because line 144 of
src/main.py is the only place an `_id` is read back. -/

/-- A document of the `user` collection. -/
structure User where
  email : String
  name : Option String
  hashed_password : String
  created_at : Nat
  updated_at : Nat
deriving DecidableEq, Repr

/-- A document of the `passwordresettoken` collection. -/
structure PasswordResetToken where
  id : Nat
  user_email : String
  token : String
  expires_at : Nat
  used : Bool
  created_at : Nat
  updated_at : Nat
deriving DecidableEq, Repr

/-- The document store: the two collections the auth core touches, plus
the `_id` counter for the token collection. -/
structure DB where
  users : List User
  tokens : List PasswordResetToken
  next_id : Nat
deriving DecidableEq, Repr

/-- The empty store. -/
def DB.empty : DB := ⟨[], [], 0⟩

/-- `update_one(filter, {"$set": ...})`: update the first element
satisfying `p` (Mongo updates a single, first-matching document). -/
def updateFirst (p : α → Bool) (f : α → α) : List α → List α
  | [] => []
  | x :: xs => if p x then f x :: xs else x :: updateFirst p f xs

/-- An `HTTPException`: status code and detail message. -/
structure Err where
  status_code : Nat
  detail : String
deriving DecidableEq, Repr

/-- Response body `{ok, message}` (signup and reset confirm). -/
structure MsgResponse where
  ok : Bool
  message : String
deriving DecidableEq, Repr

/-- Response body of `login`: `{ok, token, user: {email, name}}`. -/
structure LoginResponse where
  ok : Bool
  token : String
  user_email : String
  user_name : Option String
deriving DecidableEq, Repr

/-- Response body of `password_reset_request`:
`{ok, message}` plus the optional `preview_token` key
(`none` means the key is absent from the JSON body). -/
structure ForgotResponse where
  ok : Bool
  message : String
  preview_token : Option String
deriving DecidableEq, Repr

/-! ### Routes (src/main.py lines 85-145) -/

/-- `POST /auth/signup` (src/main.py lines 85-98).  A raised
`HTTPException` is the `.error` case; the returned `DB` is the store
after the request (unchanged on error). -/
def signup (db : DB) (now : Nat) (email password : String) (name : Option String) :
    Except Err MsgResponse × DB :=
  match db.users.find? (fun u => u.email == email) with
  | some _ => (.error ⟨400, "Email already registered"⟩, db)
  | none =>
    let doc : User :=
      { email := email, name := name, hashed_password := hash_password password,
        created_at := now, updated_at := now }
    (.ok ⟨true, "Account created. You can now log in."⟩,
     { db with users := db.users ++ [doc] })

/-- `POST /auth/login` (src/main.py lines 101-109).  The demo token is
`sha256(f"{email}:{utcnow()}")`; the timestamp rendering is modelled as
`toString now`. -/
def login (db : DB) (now : Nat) (email password : String) : Except Err LoginResponse :=
  match db.users.find? (fun u => u.email == email) with
  | none => .error ⟨401, "Invalid credentials"⟩
  | some user =>
    if user.hashed_password == hash_password password then
      .ok ⟨true, sha256hex (email ++ ":" ++ toString now), user.email, user.name⟩
    else
      .error ⟨401, "Invalid credentials"⟩

/-- `POST /auth/forgot` (src/main.py lines 112-130).  `tok` is the value
produced by `uuid.uuid4().hex`, passed in as an oracle parameter. -/
def password_reset_request (db : DB) (now : Nat) (tok : String) (email : String) :
    ForgotResponse × DB :=
  match db.users.find? (fun u => u.email == email) with
  | none => (⟨true, "If that email exists, a reset link was sent.", none⟩, db)
  | some _ =>
    let rec_ : PasswordResetToken :=
      { id := db.next_id, user_email := email, token := tok, expires_at := now + 3600,
        used := false, created_at := now, updated_at := now }
    (⟨true, "Reset email sent.", some tok⟩,
     { db with tokens := db.tokens ++ [rec_], next_id := db.next_id + 1 })

/-- `POST /auth/reset` (src/main.py lines 133-145). -/
def password_reset_confirm (db : DB) (now : Nat) (token new_password : String) :
    Except Err MsgResponse × DB :=
  match db.tokens.find? (fun t => t.token == token && t.used == false) with
  | none => (.error ⟨400, "Invalid token"⟩, db)
  | some rec_ =>
    if rec_.expires_at < now then
      (.error ⟨400, "Token expired"⟩, db)
    else
      (.ok ⟨true, "Password has been reset."⟩,
       { db with
         users := updateFirst (fun u => u.email == rec_.user_email)
           (fun u => { u with hashed_password := hash_password new_password, updated_at := now })
           db.users,
         tokens := updateFirst (fun t => t.id == rec_.id)
           (fun t => { t with used := true, updated_at := now })
           db.tokens })

/-! ### Helper lemmas about `updateFirst` and `List.find?` -/

theorem updateFirst_eq_of_forall_neg {α : Type} {p : α → Bool} {f : α → α} {l : List α}
    (h : ∀ x ∈ l, p x = false) : updateFirst p f l = l := by
  induction l with
  | nil => rfl
  | cons x xs ih =>
    have hx := h x (List.mem_cons_self x xs)
    simp only [updateFirst, hx, Bool.false_eq_true, if_false]
    rw [ih fun y hy => h y (List.mem_cons_of_mem x hy)]

theorem updateFirst_append_left {α : Type} {p : α → Bool} {f : α → α} {l₁ l₂ : List α}
    (h : ∀ x ∈ l₁, p x = false) :
    updateFirst p f (l₁ ++ l₂) = l₁ ++ updateFirst p f l₂ := by
  induction l₁ with
  | nil => rfl
  | cons x xs ih =>
    have hx := h x (List.mem_cons_self x xs)
    simp only [List.cons_append, updateFirst, hx, Bool.false_eq_true, if_false, List.append_eq]
    rw [ih fun y hy => h y (List.mem_cons_of_mem x hy)]

theorem updateFirst_cons_pos {α : Type} {p : α → Bool} {f : α → α} {x : α} {xs : List α}
    (h : p x = true) : updateFirst p f (x :: xs) = f x :: xs := by
  simp [updateFirst, h]

theorem mem_updateFirst_of_neg {α : Type} {p : α → Bool} {f : α → α} {l : List α} {v : α}
    (hv : v ∈ l) (hpv : p v = false) : v ∈ updateFirst p f l := by
  induction l with
  | nil => exact absurd hv (List.not_mem_nil v)
  | cons x xs ih =>
    by_cases hx : p x = true
    · rw [updateFirst_cons_pos hx]
      rcases List.mem_cons.mp hv with h | h
      · subst h; rw [hpv] at hx; exact absurd hx (by simp)
      · exact List.mem_cons_of_mem _ h
    · simp only [updateFirst, hx, if_false]
      rcases List.mem_cons.mp hv with h | h
      · subst h; exact List.mem_cons_self v _
      · exact List.mem_cons_of_mem _ (ih h)

theorem mem_updateFirst_self {α : Type} {p : α → Bool} {f : α → α} {l : List α} {u : α}
    (hu : u ∈ l) (hpu : p u = true) (huniq : ∀ v ∈ l, p v = true → v = u) :
    f u ∈ updateFirst p f l := by
  induction l with
  | nil => exact absurd hu (List.not_mem_nil u)
  | cons x xs ih =>
    by_cases hx : p x = true
    · rw [updateFirst_cons_pos hx]
      rw [huniq x (List.mem_cons_self x xs) hx]
      exact List.mem_cons_self _ _
    · simp only [updateFirst, hx, if_false]
      have hux : u ≠ x := fun h => hx (h ▸ hpu)
      have hu' : u ∈ xs := (List.mem_cons.mp hu).resolve_left hux
      exact List.mem_cons_of_mem _
        (ih hu' fun v hv hpv => huniq v (List.mem_cons_of_mem x hv) hpv)

theorem find?_updateFirst {α : Type} {p : α → Bool} {f : α → α}
    (hp : ∀ a, p (f a) = p a) :
    ∀ l : List α, (updateFirst p f l).find? p = (l.find? p).map f := by
  intro l
  induction l with
  | nil => rfl
  | cons x xs ih =>
    by_cases hx : p x = true
    · rw [updateFirst_cons_pos hx]
      rw [List.find?_cons_of_pos _ ((hp x).trans hx), List.find?_cons_of_pos _ hx]
      rfl
    · simp only [updateFirst, hx, Bool.false_eq_true, if_false]
      rw [List.find?_cons_of_neg _ hx, List.find?_cons_of_neg _ hx, ih]

/-! ### Unfolding lemmas for `password_reset_confirm` -/

theorem confirm_eq_invalid (db : DB) (now : Nat) (token npw : String)
    (h : db.tokens.find? (fun t => t.token == token && t.used == false) = none) :
    password_reset_confirm db now token npw = (.error ⟨400, "Invalid token"⟩, db) := by
  unfold password_reset_confirm
  rw [h]

theorem confirm_eq_expired (db : DB) (now : Nat) (token npw : String)
    (rec_ : PasswordResetToken)
    (h : db.tokens.find? (fun t => t.token == token && t.used == false) = some rec_)
    (hexp : rec_.expires_at < now) :
    password_reset_confirm db now token npw = (.error ⟨400, "Token expired"⟩, db) := by
  unfold password_reset_confirm
  rw [h]
  simp [hexp]

theorem confirm_eq_live (db : DB) (now : Nat) (token npw : String)
    (rec_ : PasswordResetToken)
    (h : db.tokens.find? (fun t => t.token == token && t.used == false) = some rec_)
    (hexp : ¬ rec_.expires_at < now) :
    password_reset_confirm db now token npw =
      (.ok ⟨true, "Password has been reset."⟩,
       { db with
         users := updateFirst (fun u => u.email == rec_.user_email)
           (fun u => { u with hashed_password := hash_password npw, updated_at := now })
           db.users,
         tokens := updateFirst (fun t => t.id == rec_.id)
           (fun t => { t with used := true, updated_at := now }) db.tokens }) := by
  unfold password_reset_confirm
  rw [h]
  simp [hexp]

/-! ### Claim theorems -/

set_option maxRecDepth 16000

deriving instance DecidableEq for Except

/-- Claim C6: `signup` fails with DuplicateEmail (400 "Email already
registered") iff a User with that exact email already exists (exact,
case-sensitive string match); otherwise it inserts a new User with
`hashed_password = hash_password password` and `created_at = updated_at =
now`; a second signup with the same email always fails with
DuplicateEmail. -/
theorem signup_spec (db : DB) (now now' : Nat) (email password password' : String)
    (name name' : Option String) :
    ((∃ u ∈ db.users, u.email = email) →
      signup db now email password name = (.error ⟨400, "Email already registered"⟩, db)) ∧
    ((∀ u ∈ db.users, u.email ≠ email) →
      signup db now email password name =
        (.ok ⟨true, "Account created. You can now log in."⟩,
         { db with users := db.users ++
             [{ email := email, name := name, hashed_password := hash_password password,
                created_at := now, updated_at := now }] })) ∧
    (∀ r db', signup db now email password name = (.ok r, db') →
      signup db' now' email password' name' = (.error ⟨400, "Email already registered"⟩, db')) := by
  refine ⟨?_, ?_, ?_⟩
  · rintro ⟨u, hu, hue⟩
    match h : db.users.find? (fun v => v.email == email) with
    | none =>
      have := List.find?_eq_none.mp h u hu
      simp [hue] at this
    | some v => simp [signup, h]
  · intro hall
    have hnone : db.users.find? (fun v => v.email == email) = none :=
      List.find?_eq_none.mpr fun x hx => by simp [hall x hx]
    simp [signup, hnone]
  · intro r db' h
    match hf : db.users.find? (fun v => v.email == email) with
    | some v => simp [signup, hf] at h
    | none =>
      simp only [signup, hf] at h
      rw [Prod.mk.injEq] at h
      obtain ⟨-, h2⟩ := h
      subst h2
      simp [signup, List.find?_append, hf, List.find?]

/-- Witness for C6: a concrete successful signup into the empty store. -/
theorem signup_spec_witness :
    signup DB.empty 0 "a@x.com" "p1" none =
      (.ok ⟨true, "Account created. You can now log in."⟩,
       { users := [{ email := "a@x.com", name := none, hashed_password := hash_password "p1",
                     created_at := 0, updated_at := 0 }],
         tokens := [], next_id := 0 }) :=
  (signup_spec DB.empty 0 1 "a@x.com" "p1" "q" none none).2.1
    (fun u hu => absurd hu (List.not_mem_nil u))

/-- Claim C5: `login` fails exactly when no User matches the email or the
found User's stored digest differs from `hash_password password`, and the
error is the identical (401, "Invalid credentials") in both cases. -/
theorem login_spec (db : DB) (now : Nat) (email password : String) :
    ((login db now email password).isOk = false ↔
      (∀ u ∈ db.users, u.email ≠ email) ∨
      (∃ u, db.users.find? (fun v => v.email == email) = some u ∧
        u.hashed_password ≠ hash_password password)) ∧
    (∀ e, login db now email password = .error e → e = ⟨401, "Invalid credentials"⟩) := by
  constructor
  · match h : db.users.find? (fun v => v.email == email) with
    | none =>
      constructor
      · intro _
        refine Or.inl fun u hu he => ?_
        have := List.find?_eq_none.mp h u hu
        simp [he] at this
      · intro _
        simp [login, h, Except.isOk, Except.toBool]
    | some u =>
      have hue : u.email = email := by simpa using List.find?_some h
      by_cases hd : u.hashed_password == hash_password password
      · constructor
        · intro habs
          simp [login, h, hd, Except.isOk, Except.toBool] at habs
        · rintro (hall | ⟨v, hv, hne⟩)
          · exact absurd hue (hall u (List.mem_of_find?_eq_some h))
          · rw [h] at hv
            injection hv with hv
            subst hv
            exact absurd (by simpa using hd) hne
      · constructor
        · intro _
          exact Or.inr ⟨u, h, by simpa using hd⟩
        · intro _
          simp [login, h, hd, Except.isOk, Except.toBool]
  · intro e he
    match h : db.users.find? (fun v => v.email == email) with
    | none =>
      simp [login, h] at he
      exact he.symm
    | some u =>
      by_cases hd : u.hashed_password == hash_password password
      · simp [login, h, hd] at he
      · simp [login, h, hd] at he
        exact he.symm

/-- Witness for C5: a nonexistent email fails, and the error it produces
is (401, "Invalid credentials"). -/
theorem login_spec_witness :
    (login DB.empty 0 "a@x.com" "p1").isOk = false :=
  (login_spec DB.empty 0 "a@x.com" "p1").1.mpr
    (Or.inl fun u hu => absurd hu (List.not_mem_nil u))

/-- Concrete store for claim C2: one registered user `a@x.com`. -/
def c2db : DB :=
  ⟨[{ email := "a@x.com", name := none, hashed_password := "h",
      created_at := 0, updated_at := 0 }], [], 0⟩

/-- Counterexample to claim C2 as stated: with one registered user, the
forgot-password response body for an absent email is distinguishable from
the body for the present email (the messages differ and `preview_token`
is present only in the latter). -/
theorem forgot_indistinguishable_counterexample :
    ¬ (∀ (db : DB) (now : Nat) (tok emailA emailP : String),
        db.users.find? (fun v => v.email == emailA) = none →
        (db.users.find? (fun v => v.email == emailP)).isSome = true →
        (password_reset_request db now tok emailA).1 =
          (password_reset_request db now tok emailP).1) := by
  intro h
  exact absurd (h c2db 0 "T" "b@y.com" "a@x.com" (by decide) (by decide)) (by decide)

/-- Claim C2 amended: both branches return HTTP 200 with `ok = true`, but
the bodies are distinguishable: an absent email yields the generic
message with no `preview_token` and an unchanged store, while a present
email yields "Reset email sent." with the token as `preview_token`. -/
theorem forgot_response_shapes (db : DB) (now : Nat) (tok email : String) :
    (db.users.find? (fun v => v.email == email) = none →
      password_reset_request db now tok email =
        (⟨true, "If that email exists, a reset link was sent.", none⟩, db)) ∧
    ((db.users.find? (fun v => v.email == email)).isSome = true →
      (password_reset_request db now tok email).1 =
        ⟨true, "Reset email sent.", some tok⟩) := by
  constructor
  · intro h
    simp [password_reset_request, h]
  · intro h
    match hf : db.users.find? (fun v => v.email == email) with
    | none => rw [hf] at h; simp at h
    | some u => simp [password_reset_request, hf]

/-- Witness for amended C2: the present-email branch on the concrete
store. -/
theorem forgot_response_shapes_witness :
    (password_reset_request c2db 0 "T" "a@x.com").1 =
      ⟨true, "Reset email sent.", some "T"⟩ :=
  (forgot_response_shapes c2db 0 "T" "a@x.com").2 (by decide)

/-- Claim C8: for an existing email, `password_reset_request` inserts a
PasswordResetToken carrying that `user_email`, `expires_at = now + 3600`
(one hour), `used = false`, a fresh `_id`, and returns the very token
value as `preview_token`.  The opaque token value is the `uuid4().hex`
oracle parameter `tok`. -/
theorem request_reset_inserts_token (db : DB) (now : Nat) (tok email : String)
    (h : (db.users.find? (fun v => v.email == email)).isSome = true) :
    password_reset_request db now tok email =
      (⟨true, "Reset email sent.", some tok⟩,
       { db with
         tokens := db.tokens ++
           [{ id := db.next_id, user_email := email, token := tok, expires_at := now + 3600,
              used := false, created_at := now, updated_at := now }],
         next_id := db.next_id + 1 }) := by
  match hf : db.users.find? (fun v => v.email == email) with
  | none => rw [hf] at h; simp at h
  | some u => simp [password_reset_request, hf]

/-- Witness for C8 on the concrete one-user store. -/
theorem request_reset_inserts_token_witness :
    password_reset_request c2db 5 "T" "a@x.com" =
      (⟨true, "Reset email sent.", some "T"⟩,
       { users := c2db.users,
         tokens := [{ id := 0, user_email := "a@x.com", token := "T", expires_at := 3605,
                      used := false, created_at := 5, updated_at := 5 }],
         next_id := 1 }) :=
  request_reset_inserts_token c2db 5 "T" "a@x.com" (by decide)

/-- Claim C1: the three-step state machine of `password_reset_confirm`.
If no token record has exactly this token string with `used = false`, the
call fails with (400, "Invalid token").  If the first such record is
expired it fails with (400, "Token expired") and the store is unchanged.
Otherwise the call returns ok, the User(s) matching the record's
`user_email` get `hashed_password = hash_password new_password` and
`updated_at = now`, the record is marked `used = true, updated_at = now`,
and every other document is untouched (stated pointwise under uniqueness
of user emails and token ids). -/
theorem password_reset_confirm_state_machine (db : DB) (now : Nat)
    (token new_password : String) :
    ((∀ t ∈ db.tokens, t.token = token → t.used = true) →
      password_reset_confirm db now token new_password = (.error ⟨400, "Invalid token"⟩, db)) ∧
    (∀ rec_, db.tokens.find? (fun t => t.token == token && t.used == false) = some rec_ →
      rec_.expires_at < now →
      password_reset_confirm db now token new_password = (.error ⟨400, "Token expired"⟩, db)) ∧
    (∀ rec_, db.tokens.find? (fun t => t.token == token && t.used == false) = some rec_ →
      ¬ rec_.expires_at < now →
      (db.users.map User.email).Nodup →
      (db.tokens.map PasswordResetToken.id).Nodup →
      (password_reset_confirm db now token new_password).1 =
          .ok ⟨true, "Password has been reset."⟩ ∧
        (∀ u ∈ db.users, u.email = rec_.user_email →
          { u with hashed_password := hash_password new_password, updated_at := now } ∈
            (password_reset_confirm db now token new_password).2.users) ∧
        (∀ u ∈ db.users, u.email ≠ rec_.user_email →
          u ∈ (password_reset_confirm db now token new_password).2.users) ∧
        { rec_ with used := true, updated_at := now } ∈
          (password_reset_confirm db now token new_password).2.tokens ∧
        (∀ t ∈ db.tokens, t.id ≠ rec_.id →
          t ∈ (password_reset_confirm db now token new_password).2.tokens)) := by
  refine ⟨?_, ?_, ?_⟩
  · intro hall
    refine confirm_eq_invalid db now token new_password (List.find?_eq_none.mpr fun t ht => ?_)
    simp only [Bool.and_eq_true, beq_iff_eq, not_and]
    intro htok
    simp [hall t ht htok]
  · intro rec_ hf hexp
    exact confirm_eq_expired db now token new_password rec_ hf hexp
  · intro rec_ hf hexp hemails hids
    rw [confirm_eq_live db now token new_password rec_ hf hexp]
    refine ⟨rfl, ?_, ?_, ?_, ?_⟩
    · intro u hu hue
      refine mem_updateFirst_self hu (by simp [hue]) fun v hv hpv => ?_
      refine List.inj_on_of_nodup_map hemails hv hu ?_
      have hv' : v.email = rec_.user_email := by simpa using hpv
      rw [hv', hue]
    · intro u hu hue
      exact mem_updateFirst_of_neg hu (by simp [hue])
    · have hmem := List.mem_of_find?_eq_some hf
      refine mem_updateFirst_self hmem (by simp) fun v hv hpv => ?_
      exact List.inj_on_of_nodup_map hids hv hmem (by simpa using hpv)
    · intro t ht hid
      exact mem_updateFirst_of_neg ht (by simp [hid])

/-- Concrete store shared by the confirm-claim witnesses: one user
`a@x.com` and one unused token "T" for that user expiring at 100. -/
def c1db : DB :=
  ⟨[{ email := "a@x.com", name := none, hashed_password := "h",
      created_at := 0, updated_at := 0 }],
   [{ id := 0, user_email := "a@x.com", token := "T", expires_at := 100, used := false,
      created_at := 0, updated_at := 0 }], 1⟩

/-- Witness for C1: the success branch on the concrete store. -/
theorem password_reset_confirm_state_machine_witness :
    (password_reset_confirm c1db 50 "T" "p2").1 = .ok ⟨true, "Password has been reset."⟩ ∧
    ({ id := 0, user_email := "a@x.com", token := "T", expires_at := 100, used := true,
       created_at := 0, updated_at := 50 : PasswordResetToken } ∈
      (password_reset_confirm c1db 50 "T" "p2").2.tokens) := by
  have h := (password_reset_confirm_state_machine c1db 50 "T" "p2").2.2
    ⟨0, "a@x.com", "T", 100, false, 0, 0⟩ (by decide) (by decide) (by decide) (by decide)
  exact ⟨h.1, h.2.2.2.1⟩

/-- Counterexample to claim C3 as stated: at `now = expires_at = 100` the
code still redeems the token and rewrites the user's password — the
expiry check is the strict `expires_at < now`, so redeemability is not
confined to `now < expires_at`. -/
theorem confirm_strict_expiry_counterexample :
    ¬ (∀ (db : DB) (now : Nat) (tok pw : String) (r : MsgResponse) (db' : DB),
        password_reset_confirm db now tok pw = (.ok r, db') →
        db'.users ≠ db.users →
        ∃ rec_ ∈ db.tokens, rec_.token = tok ∧ rec_.used = false ∧ now < rec_.expires_at) := by
  intro h
  have hlive := confirm_eq_live c1db 100 "T" "p2" ⟨0, "a@x.com", "T", 100, false, 0, 0⟩
    (by decide) (by decide)
  obtain ⟨rec_, hmem, -, -, hlt⟩ := h c1db 100 "T" "p2" _ _ hlive (by decide)
  simp only [c1db, List.mem_singleton] at hmem
  subst hmem
  exact absurd hlt (by decide)

/-- Claim C3 amended: `confirm_reset` changes a password only for a token
with `used = false` and `now ≤ expires_at` (the code's expiry check is
the strict `expires_at < now`, so the boundary instant `now = expires_at`
still redeems); whenever `expires_at` is strictly in the past, the call
fails with (400, "Token expired") and the store — every password and the
token's `used = false` flag — is left unchanged. -/
theorem confirm_expiry_boundary (db : DB) (now : Nat) (tok pw : String) :
    (∀ r db', password_reset_confirm db now tok pw = (.ok r, db') →
      ∃ rec_ ∈ db.tokens, rec_.token = tok ∧ rec_.used = false ∧ now ≤ rec_.expires_at) ∧
    (∀ rec_, db.tokens.find? (fun t => t.token == tok && t.used == false) = some rec_ →
      rec_.expires_at < now →
      password_reset_confirm db now tok pw = (.error ⟨400, "Token expired"⟩, db)) := by
  constructor
  · intro r db' h
    match hf : db.tokens.find? (fun t => t.token == tok && t.used == false) with
    | none =>
      rw [confirm_eq_invalid db now tok pw hf] at h
      exact absurd (congrArg Prod.fst h) (by simp)
    | some rec_ =>
      by_cases hexp : rec_.expires_at < now
      · rw [confirm_eq_expired db now tok pw rec_ hf hexp] at h
        exact absurd (congrArg Prod.fst h) (by simp)
      · have hp := List.find?_some hf
        simp only [Bool.and_eq_true, beq_iff_eq] at hp
        exact ⟨rec_, List.mem_of_find?_eq_some hf, hp.1, hp.2, Nat.le_of_not_lt hexp⟩
  · intro rec_ hf hexp
    exact confirm_eq_expired db now tok pw rec_ hf hexp

/-- Witness for amended C3: the expired branch on the concrete store. -/
theorem confirm_expiry_boundary_witness :
    password_reset_confirm c1db 200 "T" "p2" = (.error ⟨400, "Token expired"⟩, c1db) :=
  (confirm_expiry_boundary c1db 200 "T" "p2").2 ⟨0, "a@x.com", "T", 100, false, 0, 0⟩
    (by decide) (by decide)

/-- Claim C10: a live token whose `user_email` matches no existing User
still redeems: the call returns ok and marks that token `used = true`
(other tokens untouched), while the user collection is unchanged — the
`user_email` foreign reference is never checked against the User store. -/
theorem confirm_unknown_email (db : DB) (now : Nat) (tok npw : String)
    (rec_ : PasswordResetToken)
    (hf : db.tokens.find? (fun t => t.token == tok && t.used == false) = some rec_)
    (hexp : ¬ rec_.expires_at < now)
    (hnouser : ∀ u ∈ db.users, u.email ≠ rec_.user_email)
    (hids : (db.tokens.map PasswordResetToken.id).Nodup) :
    (password_reset_confirm db now tok npw).1 = .ok ⟨true, "Password has been reset."⟩ ∧
    (password_reset_confirm db now tok npw).2.users = db.users ∧
    ({ rec_ with used := true, updated_at := now } ∈
      (password_reset_confirm db now tok npw).2.tokens) ∧
    (∀ t ∈ db.tokens, t.id ≠ rec_.id → t ∈ (password_reset_confirm db now tok npw).2.tokens) := by
  rw [confirm_eq_live db now tok npw rec_ hf hexp]
  refine ⟨rfl, ?_, ?_, ?_⟩
  · exact updateFirst_eq_of_forall_neg fun u hu => by simp [hnouser u hu]
  · have hmem := List.mem_of_find?_eq_some hf
    refine mem_updateFirst_self hmem (by simp) fun v hv hpv => ?_
    exact List.inj_on_of_nodup_map hids hv hmem (by simpa using hpv)
  · intro t ht hid
    exact mem_updateFirst_of_neg ht (by simp [hid])

/-- Concrete store for the C10 witness: a live token for `ghost@x.com`
with an empty user collection. -/
def c10db : DB :=
  ⟨[],
   [{ id := 0, user_email := "ghost@x.com", token := "T", expires_at := 100, used := false,
      created_at := 0, updated_at := 0 }], 1⟩

/-- Witness for C10 on the concrete store. -/
theorem confirm_unknown_email_witness :
    (password_reset_confirm c10db 50 "T" "p2").1 = .ok ⟨true, "Password has been reset."⟩ ∧
    (password_reset_confirm c10db 50 "T" "p2").2.users = c10db.users := by
  have h := confirm_unknown_email c10db 50 "T" "p2" ⟨0, "ghost@x.com", "T", 100, false, 0, 0⟩
    (by decide) (by decide) (fun u hu => absurd hu (List.not_mem_nil u)) (by decide)
  exact ⟨h.1, h.2.1⟩

/-- Claim C4: a freshly issued, unexpired token redeems exactly once.
From a store whose token `_id`s are below the counter and where the token
string `tok` is not yet issued, issuing it for an existing user and
confirming once at `now2 ≤ now1 + 3600` returns ok and sets the stored
digest of the user found by that email to `hash_password npw`; an
immediate second confirm with the same token fails with
(400, "Invalid token") and leaves the store unchanged. -/
theorem fresh_token_single_use (db0 : DB) (now1 now2 now3 : Nat)
    (tok email npw npw2 : String)
    (huser : (db0.users.find? (fun v => v.email == email)).isSome = true)
    (hfresh : ∀ t ∈ db0.tokens, t.token ≠ tok)
    (hids : ∀ t ∈ db0.tokens, t.id < db0.next_id)
    (hlive : now2 ≤ now1 + 3600) :
    ∀ db1, password_reset_request db0 now1 tok email =
        (⟨true, "Reset email sent.", some tok⟩, db1) →
    ∀ r2 db2, password_reset_confirm db1 now2 tok npw = (r2, db2) →
      r2 = .ok ⟨true, "Password has been reset."⟩ ∧
      (∃ u, db2.users.find? (fun v => v.email == email) = some u ∧
        u.hashed_password = hash_password npw) ∧
      password_reset_confirm db2 now3 tok npw2 = (.error ⟨400, "Invalid token"⟩, db2) := by
  intro db1 h1 r2 db2 h2
  have hreq := request_reset_inserts_token db0 now1 tok email huser
  rw [hreq] at h1
  obtain ⟨-, hdb1⟩ := (Prod.mk.injEq _ _ _ _).mp h1
  subst hdb1
  have h0 : db0.tokens.find? (fun t => t.token == tok && t.used == false) = none :=
    List.find?_eq_none.mpr fun t ht => by
      simp only [Bool.and_eq_true, beq_iff_eq, not_and]
      intro htok
      exact absurd htok (hfresh t ht)
  have hfind1 : ({ db0 with
        tokens := db0.tokens ++
          [(⟨db0.next_id, email, tok, now1 + 3600, false, now1, now1⟩ : PasswordResetToken)],
        next_id := db0.next_id + 1 } : DB).tokens.find?
        (fun t => t.token == tok && t.used == false) =
      some ⟨db0.next_id, email, tok, now1 + 3600, false, now1, now1⟩ := by
    show (db0.tokens ++
        [(⟨db0.next_id, email, tok, now1 + 3600, false, now1, now1⟩ : PasswordResetToken)]).find?
        (fun t => t.token == tok && t.used == false) =
      some ⟨db0.next_id, email, tok, now1 + 3600, false, now1, now1⟩
    rw [List.find?_append, h0, List.find?_cons_of_pos _ (by simp)]
    rfl
  have hexp2 : ¬ (⟨db0.next_id, email, tok, now1 + 3600, false, now1,
      now1⟩ : PasswordResetToken).expires_at < now2 := by
    show ¬ now1 + 3600 < now2
    exact Nat.not_lt.mpr hlive
  have hconf := confirm_eq_live _ now2 tok npw _ hfind1 hexp2
  rw [hconf] at h2
  obtain ⟨hr2, hdb2⟩ := (Prod.mk.injEq _ _ _ _).mp h2
  subst hr2
  subst hdb2
  refine ⟨rfl, ?_, ?_⟩
  · show ∃ u, (updateFirst (fun v => v.email == email)
        (fun u => { u with hashed_password := hash_password npw, updated_at := now2 })
        db0.users).find? (fun v => v.email == email) = some u ∧
      u.hashed_password = hash_password npw
    match hu : db0.users.find? (fun v => v.email == email) with
    | none => rw [hu] at huser; simp at huser
    | some u0 =>
      refine ⟨{ u0 with hashed_password := hash_password npw, updated_at := now2 }, ?_, rfl⟩
      rw [@find?_updateFirst User (fun v => v.email == email)
        (fun u => { u with hashed_password := hash_password npw, updated_at := now2 })
        (fun a => rfl) db0.users, hu]
      rfl
  · apply confirm_eq_invalid
    show (updateFirst (fun t => t.id == db0.next_id)
        (fun t => { t with used := true, updated_at := now2 })
        (db0.tokens ++
          [(⟨db0.next_id, email, tok, now1 + 3600, false, now1, now1⟩ : PasswordResetToken)])).find?
        (fun t => t.token == tok && t.used == false) = none
    have hA : ∀ t ∈ db0.tokens, (t.id == db0.next_id) = false := fun t ht => by
      rw [beq_eq_false_iff_ne]
      exact Nat.ne_of_lt (hids t ht)
    rw [updateFirst_append_left hA, updateFirst_cons_pos (by simp), List.find?_append, h0,
      List.find?_cons_of_neg _ (by simp)]
    rfl

/-- Concrete store for the C4 witness: one user, no tokens. -/
def c4db : DB :=
  ⟨[{ email := "a@x.com", name := none, hashed_password := "h",
      created_at := 0, updated_at := 0 }], [], 0⟩

/-- Witness for C4: issue and redeem a concrete token once. -/
theorem fresh_token_single_use_witness :
    (password_reset_confirm (password_reset_request c4db 0 "T" "a@x.com").2 1 "T" "p2").1 =
      .ok ⟨true, "Password has been reset."⟩ :=
  (fresh_token_single_use c4db 0 1 2 "T" "a@x.com" "p2" "p3" (by decide)
    (fun t ht => absurd ht (List.not_mem_nil t)) (fun t ht => absurd ht (List.not_mem_nil t))
    (by decide) _ rfl _ _ rfl).1

/-- Store after `signup("a@x.com", "p1")` in the C7 scenario. -/
def sc1 : DB := (signup DB.empty 0 "a@x.com" "p1" none).2

/-- Store after `request_reset("a@x.com")` issued token "T". -/
def sc2 : DB := (password_reset_request sc1 1 "T" "a@x.com").2

/-- Store after `confirm_reset("T", "p2")`. -/
def sc3 : DB := (password_reset_confirm sc2 2 "T" "p2").2

/-- Claim C7: the end-to-end scenario.  After signup with "p1" and a
successful reset to "p2" via token "T", login with the old password "p1"
fails with (401, "Invalid credentials") while login with "p2" succeeds —
`confirm_reset` replaces exactly the credential `login` verifies. -/
theorem reset_replaces_login_credential :
    (signup DB.empty 0 "a@x.com" "p1" none).1 =
        .ok ⟨true, "Account created. You can now log in."⟩ ∧
    (login sc1 1 "a@x.com" "p1").isOk = true ∧
    login sc1 1 "a@x.com" "wrong" = .error ⟨401, "Invalid credentials"⟩ ∧
    (password_reset_request sc1 1 "T" "a@x.com").1 = ⟨true, "Reset email sent.", some "T"⟩ ∧
    (password_reset_confirm sc2 2 "T" "p2").1 = .ok ⟨true, "Password has been reset."⟩ ∧
    login sc3 3 "a@x.com" "p1" = .error ⟨401, "Invalid credentials"⟩ ∧
    (login sc3 3 "a@x.com" "p2").isOk = true := by
  decide

/-! ### Claim C9: the hash function -/

/-- Appending one 32-bit word to a number below `2 ^ k` stays below
`2 ^ (k + 32)`. -/
theorem hex_step {x y : Nat} (k : Nat) (hx : x < 2 ^ k) (hy : y < M32) :
    x * M32 + y < 2 ^ (k + 32) := by
  have h1 : x * M32 + y < (x + 1) * M32 := by
    rw [Nat.succ_mul]
    exact Nat.add_lt_add_left hy _
  have h2 : (x + 1) * M32 ≤ 2 ^ k * M32 := Nat.mul_le_mul_right _ hx
  have h3 : 2 ^ k * M32 = 2 ^ (k + 32) := by rw [M32, ← pow_add]
  exact h3 ▸ Nat.lt_of_lt_of_le h1 h2

/-- The packed digest is a 256-bit number. -/
theorem wordsToNat_lt (ws : List Nat) : wordsToNat ws < 2 ^ 256 := by
  have m : ∀ z : Nat, z % M32 < M32 := fun z => Nat.mod_lt _ (by decide)
  unfold wordsToNat
  split
  · next a b c d e f g h =>
    have h32 : a % M32 < 2 ^ 32 := m a
    have h64 := hex_step 32 h32 (m b)
    have h96 := hex_step 64 h64 (m c)
    have h128 := hex_step 96 h96 (m d)
    have h160 := hex_step 128 h128 (m e)
    have h192 := hex_step 160 h160 (m f)
    have h224 := hex_step 192 h192 (m g)
    exact hex_step 224 h224 (m h)
  · next => decide

/-- The numeric 256-bit digest underlying `hash_password`
(`hash_password = natToHex64 ∘ hashNat` definitionally). -/
def hashNat (pw : String) : Nat := sha256Nat (strBytes (APP_SALT ++ pw))

theorem hashNat_lt (pw : String) : hashNat pw < 2 ^ 256 := wordsToNat_lt _

theorem replicate_string_injective :
    Function.Injective (fun n => String.mk (List.replicate n 'a')) := by
  intro a b h
  have h' : List.replicate a 'a' = List.replicate b 'a' := congrArg String.data h
  have := congrArg List.length h'
  simpa using this

/-- Counterexample to claim C9 as stated: `hash_password` lands in a fixed
256-bit range while `String` is infinite, so by pigeonhole it cannot
satisfy `hash x ≠ hash y` for all `x ≠ y` — the universal collision-free
clause is (nonconstructively) false, even though no concrete collision is
feasibly exhibitable. -/
theorem hash_password_injective_counterexample :
    ¬ (∀ x y : String, x ≠ y → hash_password x ≠ hash_password y) := by
  intro hclaim
  have hinj : Function.Injective hash_password := by
    intro a b hab
    by_contra hne
    exact hclaim a b hne hab
  have hinjN : Function.Injective fun pw => (⟨hashNat pw, hashNat_lt pw⟩ : Fin (2 ^ 256)) := by
    intro a b hab
    apply hinj
    have hv : hashNat a = hashNat b := congrArg Fin.val hab
    show natToHex64 (hashNat a) = natToHex64 (hashNat b)
    rw [hv]
  have hcomp : Function.Injective fun n : Nat =>
      (⟨hashNat (String.mk (List.replicate n 'a')),
        hashNat_lt (String.mk (List.replicate n 'a'))⟩ : Fin (2 ^ 256)) :=
    hinjN.comp replicate_string_injective
  haveI : Finite Nat := Finite.of_injective _ hcomp
  exact not_finite Nat

/-- Claim C9 amended: `hash_password` is a pure deterministic function of
the secret and the fixed process salt — `hash x = hash x` for every `x` —
and it is collision-free on practical test inputs (verified here on a
concrete sample of secrets); injectivity over all strings is impossible
for a fixed-width digest and is dropped. -/
theorem hash_password_deterministic :
    (∀ x : String, hash_password x = hash_password x) ∧
    (["p1", "p2", "wrong", ""].map hash_password).Nodup := by
  refine ⟨fun x => rfl, ?_⟩
  decide

end SaaS
